import Mathlib

/-!
# Task Manager (`src/App.js`): a shallow embedding and its verified properties

The component `App` keeps two pieces of React state, `todos` and `inputValue`,
and mirrors `todos` into `localStorage` under the key `react-todo-app-v1`.

Conventions of the embedding:

* a JavaScript string is the list of its UTF-16 code units (`JSString`);
* `Date.now()` is an integral time value, passed to the handler as `now`;
* a handler reads `todos` and `inputValue` from the render it was created in
  and calls the setters, so it is a function from the state of that render
  to the state of the next one;
* `localStorage` is a finite map from keys to values, `JSON.stringify` and
  `JSON.parse` are the host functions of ECMA-262 on the values that occur;
* a JavaScript number is modelled where it is an integer of absolute value at
  most `2 ^ 53` (`maxExactInteger`), the range in which every integer is a
  double, is written by `Number::toString` with all its digits and is read
  back exactly; every value of `Date.now()` lies in that range. Outside it the
  parser answers `notModelled`.
-/

namespace TaskManager

/-! ## Strings -/

/-- A JavaScript string: the sequence of its UTF-16 code units. -/
abbrev JSString := List Nat

/-- The code units of a text written with characters of the Basic Multilingual
Plane or beyond (a character above U+FFFF gives a surrogate pair). -/
def utf16 (s : String) : JSString :=
  s.toList.flatMap fun c =>
    if c.toNat < 0x10000 then [c.toNat]
    else [0xD800 + (c.toNat - 0x10000) / 0x400, 0xDC00 + (c.toNat - 0x10000) % 0x400]

/-- The code units that `String.prototype.trim` strips: WhiteSpace and
LineTerminator of ECMA-262 (TAB, LF, VT, FF, CR, SP, NBSP, the Zs category,
LS, PS and ZWNBSP). -/
def isWhiteSpace (c : Nat) : Bool :=
  c == 0x09 || c == 0x0A || c == 0x0B || c == 0x0C || c == 0x0D || c == 0x20 ||
  c == 0xA0 || c == 0x1680 || (0x2000 ≤ c && c ≤ 0x200A) ||
  c == 0x2028 || c == 0x2029 || c == 0x202F || c == 0x205F || c == 0x3000 ||
  c == 0xFEFF

/-- The method `String.prototype.trim`: white space is removed from both ends. -/
def trim (s : JSString) : JSString :=
  ((s.dropWhile isWhiteSpace).reverse.dropWhile isWhiteSpace).reverse

/-! ## Data model -/

/-- One entry of `todos`: the object literal `{ id, text, completed }` built in
`handleAddTodo`. -/
structure Todo where
  id : Int
  text : JSString
  completed : Bool
deriving DecidableEq, Repr

/-- The React state of `App`: the two `useState` cells. -/
structure AppState where
  todos : List Todo
  inputValue : JSString
deriving DecidableEq, Repr

/-! ## Handlers -/

/-- The handler `handleInputChange`: `setInputValue(e.target.value)`. -/
def handleInputChange (value : JSString) (st : AppState) : AppState :=
  { st with inputValue := value }

/-- The handler `handleAddTodo`. `now` is what `Date.now()` returns if it is
called. A blank `inputValue` returns before any setter runs. -/
def handleAddTodo (now : Int) (st : AppState) : AppState :=
  if trim st.inputValue = [] then st
  else
    let newTodo : Todo := { id := now, text := st.inputValue, completed := false }
    { todos := st.todos ++ [newTodo], inputValue := [] }

/-- The array that `toggleTodo` passes to `setTodos`:
`todos.map(todo => todo.id === id ? { ...todo, completed: !todo.completed } : todo)`. -/
def toggleTodo (id : Int) (todos : List Todo) : List Todo :=
  todos.map fun todo => if todo.id = id then { todo with completed := !todo.completed } else todo

/-- The array that `deleteTodo` passes to `setTodos`:
`todos.filter(todo => todo.id !== id)`. -/
def deleteTodo (id : Int) (todos : List Todo) : List Todo :=
  todos.filter fun todo => todo.id ≠ id

/-- The handler `toggleTodo` on the state. -/
def handleToggle (id : Int) (st : AppState) : AppState :=
  { st with todos := toggleTodo id st.todos }

/-- The handler `deleteTodo` on the state. -/
def handleDelete (id : Int) (st : AppState) : AppState :=
  { st with todos := deleteTodo id st.todos }

/-! ## Task statistics -/

/-- The constant `completedCount`: `todos.filter(todo => todo.completed).length`. -/
def completedCount (todos : List Todo) : Nat :=
  (todos.filter fun todo => todo.completed).length

/-- The constant `totalCount`: `todos.length`. -/
def totalCount (todos : List Todo) : Nat :=
  todos.length

/-- The expression `totalCount - completedCount` of the `Remaining:` item; the
subtraction of JavaScript numbers is not truncated at zero. -/
def remainingCount (todos : List Todo) : Int :=
  (totalCount todos : Int) - (completedCount todos : Int)

/-- The ids of a task list are pairwise distinct. -/
def DistinctIds (todos : List Todo) : Prop :=
  (todos.map Todo.id).Nodup

instance (todos : List Todo) : Decidable (DistinctIds todos) := by
  unfold DistinctIds; infer_instance

/-! ## JavaScript values and `JSON` -/

/-- The largest `n` such that every integer from `-n` to `n` is a JavaScript
number (a double): `2 ^ 53`. A time value is at most `8.64e15` in absolute
value and so within this bound. -/
def maxExactInteger : Nat := 9007199254740992

/-- The JavaScript values that `JSON.parse` can return. A number is an integer
of absolute value at most `maxExactInteger` here (every id is a time value);
an object is the list of its own properties in the order of the text, and a
key that is an integer index is left out of the model (see `isIndexKey`). -/
inductive JSValue where
  | null
  | bool (b : Bool)
  | number (n : Int)
  | string (s : JSString)
  | array (elements : List JSValue)
  | object (properties : List (JSString × JSValue))

/-- The value of a task: the object `{ id, text, completed }` with its
properties in the order of the literal in `handleAddTodo` (the spread in
`toggleTodo` keeps that order). -/
def todoValue (t : Todo) : JSValue :=
  .object [(utf16 "id", .number t.id), (utf16 "text", .string t.text),
    (utf16 "completed", .bool t.completed)]

/-- The value of the state cell `todos`: the array of the task objects. -/
def todosValue (todos : List Todo) : JSValue :=
  .array (todos.map todoValue)

/-! ### `JSON.stringify` -/

/-- A hexadecimal digit in lower case, for a value below 16. -/
def hexDigit (d : Nat) : Nat :=
  if d < 10 then 0x30 + d else 0x61 + (d - 10)

/-- The abstract operation `UnicodeEscape`: a backslash, `u` and four
hexadecimal digits. -/
def unicodeEscape (c : Nat) : JSString :=
  [0x5C, 0x75, hexDigit (c / 0x1000 % 16), hexDigit (c / 0x100 % 16),
    hexDigit (c / 0x10 % 16), hexDigit (c % 16)]

/-- A leading (high) surrogate. -/
def isLeadingSurrogate (c : Nat) : Bool := 0xD800 ≤ c && c ≤ 0xDBFF

/-- A trailing (low) surrogate. -/
def isTrailingSurrogate (c : Nat) : Bool := 0xDC00 ≤ c && c ≤ 0xDFFF

/-- The text that `QuoteJSONString` writes for a code point that is one code
unit: the short escapes of its table, `UnicodeEscape` for the other code units
below U+0020 and for a surrogate (which stands alone here), and the code unit
itself otherwise. -/
def quoteUnit (c : Nat) : JSString :=
  if c = 0x08 then [0x5C, 0x62]
  else if c = 0x09 then [0x5C, 0x74]
  else if c = 0x0A then [0x5C, 0x6E]
  else if c = 0x0C then [0x5C, 0x66]
  else if c = 0x0D then [0x5C, 0x72]
  else if c = 0x22 then [0x5C, 0x22]
  else if c = 0x5C then [0x5C, 0x5C]
  else if c < 0x20 ∨ isLeadingSurrogate c ∨ isTrailingSurrogate c then unicodeEscape c
  else [c]

/-- The loop of `QuoteJSONString` over the code points of the string
(`StringToCodePoints`): a leading surrogate with a trailing surrogate after it
is one code point and is written as its two code units, every other code unit
is a code point of its own. -/
def quoteChars : JSString → JSString
  | [] => []
  | [c] => quoteUnit c
  | c :: d :: rest =>
    if isLeadingSurrogate c ∧ isTrailingSurrogate d then c :: d :: quoteChars rest
    else quoteUnit c ++ quoteChars (d :: rest)

/-- The abstract operation `QuoteJSONString`. -/
def quoteJSONString (s : JSString) : JSString :=
  0x22 :: quoteChars s ++ [0x22]

/-- The decimal digits of a natural number, most significant first; `fuel`
bounds the number of digits. -/
def natToDecimal : Nat → Nat → JSString
  | 0, _ => []
  | fuel + 1, n =>
    if n < 10 then [0x30 + n] else natToDecimal fuel (n / 10) ++ [0x30 + n % 10]

/-- The operation `Number::toString` on an integer of absolute value at most
`maxExactInteger`: the sign and all the decimal digits, without exponent.
Beyond that bound the function still writes all digits, which is not what
`Number::toString` does (a double above `2 ^ 53` has fewer significant digits,
and from `10 ^ 21` on an exponent); the theorems use it within the bound. -/
def numberToString : Int → JSString
  | .ofNat m => natToDecimal (m + 1) m
  | .negSucc m => 0x2D :: natToDecimal (m + 2) (m + 1)

mutual
/-- The abstract operation `SerializeJSONProperty` without replacer and
without indentation: what `JSON.stringify(value)` returns. -/
def JSON_stringify : JSValue → JSString
  | .null => utf16 "null"
  | .bool true => utf16 "true"
  | .bool false => utf16 "false"
  | .number n => numberToString n
  | .string s => quoteJSONString s
  | .array elements => 0x5B :: stringifyElements elements ++ [0x5D]
  | .object properties => 0x7B :: stringifyProperties properties ++ [0x7D]
/-- The elements of an array, separated by commas (`SerializeJSONArray`). -/
def stringifyElements : List JSValue → JSString
  | [] => []
  | [v] => JSON_stringify v
  | v :: w :: vs => JSON_stringify v ++ 0x2C :: stringifyElements (w :: vs)
/-- The members of an object, separated by commas (`SerializeJSONObject`). -/
def stringifyProperties : List (JSString × JSValue) → JSString
  | [] => []
  | [(k, v)] => quoteJSONString k ++ 0x3A :: JSON_stringify v
  | (k, v) :: w :: vs =>
    quoteJSONString k ++ 0x3A :: JSON_stringify v ++ 0x2C :: stringifyProperties (w :: vs)
end

/-! ### `JSON.parse` -/

/-- Why the model of `JSON.parse` returns no value. -/
inductive ParseError where
  /-- The text is not JSON: `JSON.parse` throws a `SyntaxError`. -/
  | syntaxError
  /-- Valid JSON whose value is not among the values of the model: a number
  with a fraction or an exponent, a number above `maxExactInteger` in absolute
  value (which `JSON.parse` rounds to a double), or an object with a key that
  is an integer index (which a JavaScript object lists before its other keys). -/
  | notModelled
  /-- The recursion bound was reached. -/
  | outOfFuel
deriving DecidableEq, Repr

/-- JSON white space: TAB, LF, CR and SP. -/
def isJSONWhiteSpace (c : Nat) : Bool :=
  c == 0x09 || c == 0x0A || c == 0x0D || c == 0x20

/-- Skips JSON white space. -/
def skipWS (s : JSString) : JSString :=
  s.dropWhile isJSONWhiteSpace

/-- A decimal digit. -/
def isDigit (c : Nat) : Bool := 0x30 ≤ c && c ≤ 0x39

/-- The value of a hexadecimal digit in either case. -/
def hexVal (c : Nat) : Option Nat :=
  if 0x30 ≤ c ∧ c ≤ 0x39 then some (c - 0x30)
  else if 0x61 ≤ c ∧ c ≤ 0x66 then some (c - 0x61 + 10)
  else if 0x41 ≤ c ∧ c ≤ 0x46 then some (c - 0x41 + 10)
  else none

/-- The code unit that a one-letter escape stands for. -/
def unescape (c : Nat) : Option Nat :=
  if c = 0x22 then some 0x22
  else if c = 0x2F then some 0x2F
  else if c = 0x5C then some 0x5C
  else if c = 0x62 then some 0x08
  else if c = 0x66 then some 0x0C
  else if c = 0x6E then some 0x0A
  else if c = 0x72 then some 0x0D
  else if c = 0x74 then some 0x09
  else none

/-- The characters of a JSON string after its opening quote, up to and
including the closing quote: the string value and the text that follows. -/
def parseStringChars : JSString → Except ParseError (JSString × JSString)
  | [] => .error .syntaxError
  | c :: rest =>
    if c = 0x22 then .ok ([], rest)
    else if c = 0x5C then
      match rest with
      | [] => .error .syntaxError
      | e :: rest1 =>
        if e = 0x75 then
          match rest1 with
          | h1 :: h2 :: h3 :: h4 :: rest2 =>
            match hexVal h1, hexVal h2, hexVal h3, hexVal h4 with
            | some a, some b, some c, some d =>
              match parseStringChars rest2 with
              | .ok (s, r) => .ok ((((a * 16 + b) * 16 + c) * 16 + d) :: s, r)
              | .error err => .error err
            | _, _, _, _ => .error .syntaxError
          | _ => .error .syntaxError
        else
          match unescape e with
          | some u =>
            match parseStringChars rest1 with
            | .ok (s, r) => .ok (u :: s, r)
            | .error err => .error err
          | none => .error .syntaxError
    else if c < 0x20 then .error .syntaxError
    else
      match parseStringChars rest with
      | .ok (s, r) => .ok (c :: s, r)
      | .error err => .error err

/-- What the string parser does with one more code unit in front. -/
def consUnit (c : Nat) (r : Except ParseError (JSString × JSString)) :
    Except ParseError (JSString × JSString) :=
  match r with
  | .ok (s, rest) => .ok (c :: s, rest)
  | .error err => .error err

/-- The number that a run of decimal digits denotes. -/
def digitsValue (ds : JSString) : Nat :=
  ds.foldl (fun a c => a * 10 + (c - 0x30)) 0

/-- The digits of a JSON number without its sign: no leading zero; a fraction,
an exponent or a value above `maxExactInteger` is outside the model. -/
def parseUnsigned (s : JSString) : Except ParseError (Nat × JSString) :=
  let ds := s.takeWhile isDigit
  let rest := s.dropWhile isDigit
  if ds = [] then .error .syntaxError
  else if ds.head? = some 0x30 ∧ 1 < ds.length then .error .syntaxError
  else
    match rest with
    | c :: _ =>
      if c = 0x2E ∨ c = 0x65 ∨ c = 0x45 then .error .notModelled
      else if maxExactInteger < digitsValue ds then .error .notModelled
      else .ok (digitsValue ds, rest)
    | [] =>
      if maxExactInteger < digitsValue ds then .error .notModelled
      else .ok (digitsValue ds, rest)

/-- A JSON number: an optional minus sign and the digits. -/
def parseNumber (s : JSString) : Except ParseError (Int × JSString) :=
  match s with
  | [] => .error .syntaxError
  | c :: s1 =>
    if c = 0x2D then
      match parseUnsigned s1 with
      | .ok (n, rest) => .ok (-(n : Int), rest)
      | .error err => .error err
    else
      match parseUnsigned (c :: s1) with
      | .ok (n, rest) => .ok ((n : Int), rest)
      | .error err => .error err

/-- A key written as a decimal integer without leading zero. Such a key can be
an integer index, which a JavaScript object lists before its other keys
whatever the order of creation; objects with such keys are outside the model. -/
def isIndexKey (k : JSString) : Bool :=
  !k.isEmpty && k.all isDigit && (k.head? != some 0x30 || k.length == 1)

/-- The operation `CreateDataProperty` on the property list, for keys that are
not integer indices: a key that is already there keeps its place and takes the
new value, a new key comes last. -/
def setProperty : List (JSString × JSValue) → JSString → JSValue → List (JSString × JSValue)
  | [], k, v => [(k, v)]
  | (k1, v1) :: ps, k, v =>
    if k1 = k then (k1, v) :: ps else (k1, v1) :: setProperty ps k v

mutual
/-- A JSON value with white space before it, and the text that follows. -/
def parseValue : Nat → JSString → Except ParseError (JSValue × JSString)
  | 0, _ => .error .outOfFuel
  | fuel + 1, s =>
    match skipWS s with
    | [] => .error .syntaxError
    | c :: rest =>
      if c = 0x6E then
        match rest with
        | 0x75 :: 0x6C :: 0x6C :: r => .ok (.null, r)
        | _ => .error .syntaxError
      else if c = 0x74 then
        match rest with
        | 0x72 :: 0x75 :: 0x65 :: r => .ok (.bool true, r)
        | _ => .error .syntaxError
      else if c = 0x66 then
        match rest with
        | 0x61 :: 0x6C :: 0x73 :: 0x65 :: r => .ok (.bool false, r)
        | _ => .error .syntaxError
      else if c = 0x22 then
        match parseStringChars rest with
        | .ok (str, r) => .ok (.string str, r)
        | .error err => .error err
      else if c = 0x5B then
        match skipWS rest with
        | 0x5D :: r => .ok (.array [], r)
        | _ =>
          match parseElements fuel rest with
          | .ok (vs, r) => .ok (.array vs, r)
          | .error err => .error err
      else if c = 0x7B then
        match skipWS rest with
        | 0x7D :: r => .ok (.object [], r)
        | _ => parseMembers fuel [] rest
      else if c = 0x2D ∨ isDigit c then
        match parseNumber (c :: rest) with
        | .ok (n, r) => .ok (.number n, r)
        | .error err => .error err
      else .error .syntaxError
/-- The elements of a non-empty array up to and including the closing
bracket. -/
def parseElements : Nat → JSString → Except ParseError (List JSValue × JSString)
  | 0, _ => .error .outOfFuel
  | fuel + 1, s =>
    match parseValue fuel s with
    | .error err => .error err
    | .ok (v, rest) =>
      match skipWS rest with
      | c :: r =>
        if c = 0x2C then
          match parseElements fuel r with
          | .ok (vs, r2) => .ok (v :: vs, r2)
          | .error err => .error err
        else if c = 0x5D then .ok ([v], r)
        else .error .syntaxError
      | [] => .error .syntaxError
/-- The members of a non-empty object up to and including the closing brace;
`acc` holds the properties created so far. -/
def parseMembers : Nat → List (JSString × JSValue) → JSString →
    Except ParseError (JSValue × JSString)
  | 0, _, _ => .error .outOfFuel
  | fuel + 1, acc, s =>
    match skipWS s with
    | c :: rest =>
      if c = 0x22 then
        match parseStringChars rest with
        | .error err => .error err
        | .ok (k, rest1) =>
          match skipWS rest1 with
          | c1 :: rest2 =>
            if isIndexKey k then .error .notModelled
            else if c1 = 0x3A then
              match parseValue fuel rest2 with
              | .error err => .error err
              | .ok (v, rest3) =>
                match skipWS rest3 with
                | c2 :: rest4 =>
                  if c2 = 0x2C then parseMembers fuel (setProperty acc k v) rest4
                  else if c2 = 0x7D then .ok (.object (setProperty acc k v), rest4)
                  else .error .syntaxError
                | [] => .error .syntaxError
            else .error .syntaxError
          | [] => .error .syntaxError
      else .error .syntaxError
    | [] => .error .syntaxError
end

/-- The function `JSON.parse(text)` without reviver: one JSON value, with
nothing but white space after it. -/
def JSON_parse (text : JSString) : Except ParseError JSValue :=
  match parseValue (text.length + 1) text with
  | .ok (v, rest) => if skipWS rest = [] then .ok v else .error .syntaxError
  | .error err => .error err

/-! ## Persistence -/

/-- The entries of `localStorage`: keys with their values. -/
abbrev Storage := List (JSString × JSString)

/-- The method `localStorage.getItem(key)`; `none` is `null`. -/
def getItem (storage : Storage) (key : JSString) : Option JSString :=
  match storage with
  | [] => none
  | (k, v) :: rest => if k = key then some v else getItem rest key

/-- The method `localStorage.setItem(key, value)`. -/
def setItem (storage : Storage) (key value : JSString) : Storage :=
  match storage with
  | [] => [(key, value)]
  | (k, v) :: rest => if k = key then (k, value) :: rest else (k, v) :: setItem rest key value

/-- The key under which the list is saved. -/
def storageKey : JSString := utf16 "react-todo-app-v1"

/-- The initialiser of the `todos` state (Load): the saved text is parsed when
it is there and truthy (not the empty string), and the list is `[]` otherwise. -/
def loadTodos (storage : Storage) : Except ParseError JSValue :=
  match getItem storage storageKey with
  | some savedTodos => if savedTodos ≠ [] then JSON_parse savedTodos else .ok (.array [])
  | none => .ok (.array [])

/-- The effect that runs when `todos` has changed (Save):
`localStorage.setItem('react-todo-app-v1', JSON.stringify(todos))`. -/
def saveTodos (todos : List Todo) (storage : Storage) : Storage :=
  setItem storage storageKey (JSON_stringify (todosValue todos))

/-! ## Theorems: the task store -/

theorem length_toggleTodo (id : Int) (L : List Todo) :
    (toggleTodo id L).length = L.length := by
  simp [toggleTodo]

theorem map_id_toggleTodo (id : Int) (L : List Todo) :
    (toggleTodo id L).map Todo.id = L.map Todo.id := by
  unfold toggleTodo
  rw [List.map_map]
  apply List.map_congr_left
  intro t _
  by_cases h : t.id = id <;> simp [h]

theorem deleteTodo_sublist (id : Int) (L : List Todo) :
    (deleteTodo id L).Sublist L := by
  unfold deleteTodo
  exact List.filter_sublist L

theorem completedCount_le_totalCount (L : List Todo) :
    completedCount L ≤ totalCount L := by
  unfold completedCount totalCount
  exact List.length_filter_le _ L

/-- Toggle keeps pairwise-distinct ids. -/
theorem distinctIds_toggleTodo (id : Int) (L : List Todo) (h : DistinctIds L) :
    DistinctIds (toggleTodo id L) := by
  unfold DistinctIds at *
  rw [map_id_toggleTodo]
  exact h

/-- Delete keeps pairwise-distinct ids. -/
theorem distinctIds_deleteTodo (id : Int) (L : List Todo) (h : DistinctIds L) :
    DistinctIds (deleteTodo id L) := by
  unfold DistinctIds at *
  exact List.Nodup.sublist ((deleteTodo_sublist id L).map Todo.id) h

/-- Add keeps pairwise-distinct ids exactly when the time value is not yet an
id of the list. -/
theorem distinctIds_handleAddTodo_iff (now : Int) (L : List Todo) (t : JSString)
    (ht : trim t ≠ []) (h : DistinctIds L) :
    DistinctIds (handleAddTodo now ⟨L, t⟩).todos ↔ ∀ x ∈ L, x.id ≠ now := by
  unfold DistinctIds at *
  simp only [handleAddTodo, ht, if_false, List.map_append, List.map_cons, List.map_nil]
  rw [List.nodup_append]
  simp only [List.nodup_cons, List.not_mem_nil, not_false_eq_true, List.nodup_nil, and_self,
    true_and, h, List.Disjoint, List.mem_map, List.mem_singleton]
  constructor
  · intro hd x hx hxn
    exact hd ⟨x, hx, rfl⟩ hxn
  · rintro hd a ⟨x, hx, rfl⟩ hxn
    exact hd x hx hxn

/-- C1: with an input text whose trimmed form is non-empty, `handleAddTodo`
sets `todos` to `L ++ [n]` where `n` has the time value as id, the text exactly
as typed and `completed = false`; the total grows by one, the completed count
is unchanged, and every prior task stays at its position with all its fields. -/
theorem handleAddTodo_appends (now : Int) (L : List Todo) (t : JSString)
    (ht : trim t ≠ []) :
    (handleAddTodo now ⟨L, t⟩).todos = L ++ [{ id := now, text := t, completed := false }] ∧
    totalCount (handleAddTodo now ⟨L, t⟩).todos = totalCount L + 1 ∧
    completedCount (handleAddTodo now ⟨L, t⟩).todos = completedCount L ∧
    (handleAddTodo now ⟨L, t⟩).todos.length = L.length + 1 ∧
    (∀ i, i < L.length → (handleAddTodo now ⟨L, t⟩).todos[i]? = L[i]?) ∧
    (handleAddTodo now ⟨L, t⟩).todos[L.length]? =
      some { id := now, text := t, completed := false } := by
  have hs : (handleAddTodo now ⟨L, t⟩).todos
      = L ++ [{ id := now, text := t, completed := false }] := by
    simp [handleAddTodo, ht]
  rw [hs]
  refine ⟨rfl, ?_, ?_, ?_, ?_, ?_⟩
  · simp [totalCount]
  · simp [completedCount, List.filter_append]
  · simp
  · intro i hi
    exact List.getElem?_append_left hi
  · simp

theorem handleAddTodo_appends_witness :
    trim (utf16 " A ") ≠ [] ∧
    (handleAddTodo 1700000000000 ⟨[⟨5, utf16 "B", true⟩], utf16 " A "⟩).todos
      = [⟨5, utf16 "B", true⟩] ++
        [{ id := 1700000000000, text := utf16 " A ", completed := false }] :=
  ⟨by decide,
   (handleAddTodo_appends 1700000000000 [⟨5, utf16 "B", true⟩] (utf16 " A ") (by decide)).1⟩

/-- C2: with an input text that is empty or only white space, `handleAddTodo`
returns before any setter runs: the state (task list and input text) is the
one it started from, whatever the clock shows, so no task and no id is made. -/
theorem handleAddTodo_blank (now : Int) (L : List Todo) (t : JSString)
    (ht : trim t = []) :
    handleAddTodo now ⟨L, t⟩ = ⟨L, t⟩ ∧
    (handleAddTodo now ⟨L, t⟩).todos = L ∧
    totalCount (handleAddTodo now ⟨L, t⟩).todos = totalCount L ∧
    ∀ now2 : Int, handleAddTodo now2 ⟨L, t⟩ = handleAddTodo now ⟨L, t⟩ := by
  have hs : ∀ n : Int, handleAddTodo n ⟨L, t⟩ = ⟨L, t⟩ := by
    intro n
    simp [handleAddTodo, ht]
  refine ⟨hs now, ?_, ?_, ?_⟩
  · rw [hs]
  · rw [hs]
  · intro n
    rw [hs, hs]

theorem handleAddTodo_blank_witness :
    trim (utf16 " \t ") = [] ∧
    handleAddTodo 1700000000000 ⟨[⟨5, utf16 "B", true⟩], utf16 " \t "⟩
      = ⟨[⟨5, utf16 "B", true⟩], utf16 " \t "⟩ :=
  ⟨by decide,
   (handleAddTodo_blank 1700000000000 [⟨5, utf16 "B", true⟩] (utf16 " \t ") (by decide)).1⟩

/-- C3: `toggleTodo` returns a list of the same length in which every position
holds the task of that position with the same id and text; the completed flag
is inverted where the id matches, and a task with another id is unchanged in
every field. -/
theorem toggleTodo_spec (id : Int) (L : List Todo) :
    (toggleTodo id L).length = L.length ∧
    ∀ (i : Nat) (t : Todo), L[i]? = some t →
      ∃ u, (toggleTodo id L)[i]? = some u ∧ u.id = t.id ∧ u.text = t.text ∧
        (t.id = id → u.completed = !t.completed) ∧ (t.id ≠ id → u = t) := by
  refine ⟨length_toggleTodo id L, ?_⟩
  intro i t hi
  refine ⟨if t.id = id then { t with completed := !t.completed } else t, ?_, ?_, ?_, ?_, ?_⟩
  · simp [toggleTodo, hi]
  · by_cases h : t.id = id <;> simp [h]
  · by_cases h : t.id = id <;> simp [h]
  · intro h
    simp [h]
  · intro h
    simp [h]

/-- C4: `deleteTodo` keeps exactly the tasks whose id differs from the given
one: the result is a sublist of `L` (original relative order, fields
untouched), no task in it has the given id, and every task with another id
occurs in it as often as in `L`; from `[A, B]`, deleting `A.id` leaves `[B]`. -/
theorem deleteTodo_spec (id : Int) (L : List Todo) :
    (deleteTodo id L).Sublist L ∧
    (∀ t ∈ deleteTodo id L, t.id ≠ id) ∧
    (∀ t : Todo, t.id ≠ id → (deleteTodo id L).count t = L.count t) ∧
    (∀ t : Todo, t ∈ deleteTodo id L ↔ t ∈ L ∧ t.id ≠ id) ∧
    (∀ A B : Todo, A.id ≠ B.id → deleteTodo A.id [A, B] = [B]) := by
  refine ⟨deleteTodo_sublist id L, ?_, ?_, ?_, ?_⟩
  · intro t ht
    simpa [deleteTodo] using (List.mem_filter.mp ht).2
  · intro t ht
    unfold deleteTodo
    rw [List.count_filter]
    simpa using ht
  · intro t
    simp [deleteTodo, List.mem_filter]
  · intro A B hAB
    simp [deleteTodo, hAB, Ne.symm hAB]

/-- C5 (fails on the code): from the empty list, Add of "A" and then Add of
"B" while the clock still shows the same millisecond give two tasks with the
same id, although the list before the second Add has distinct ids. -/
theorem handleAddTodo_duplicate_id :
    (handleAddTodo 1700000000000 ⟨[], utf16 "A"⟩).todos = [⟨1700000000000, utf16 "A", false⟩] ∧
    DistinctIds [⟨1700000000000, utf16 "A", false⟩] ∧
    trim (utf16 "B") ≠ [] ∧
    (handleAddTodo 1700000000000 ⟨[⟨1700000000000, utf16 "A", false⟩], utf16 "B"⟩).todos
      = [⟨1700000000000, utf16 "A", false⟩, ⟨1700000000000, utf16 "B", false⟩] ∧
    ¬ DistinctIds
      (handleAddTodo 1700000000000 ⟨[⟨1700000000000, utf16 "A", false⟩], utf16 "B"⟩).todos := by
  decide

/-- C7 (as stated, fails): a buffer holding one space is still one space after
Submit. -/
theorem handleAddTodo_blank_keeps_buffer :
    (handleAddTodo 1700000000000 ⟨[], utf16 " "⟩).inputValue = utf16 " " ∧
    (handleAddTodo 1700000000000 ⟨[], utf16 " "⟩).inputValue ≠ [] := by
  decide

/-- C7 (amended): Submit leaves the buffer empty when its trimmed content is
non-empty (a task is appended), and leaves the buffer as it was when the
content is blank (no task is appended). -/
theorem handleAddTodo_inputValue (now : Int) (st : AppState) :
    (handleAddTodo now st).inputValue
      = if trim st.inputValue = [] then st.inputValue else [] := by
  unfold handleAddTodo
  by_cases h : trim st.inputValue = [] <;> simp [h]

/-- C8: toggling the same id twice gives back the list it started from. -/
theorem toggleTodo_involution (id : Int) (L : List Todo) :
    toggleTodo id (toggleTodo id L) = L := by
  unfold toggleTodo
  rw [List.map_map]
  conv_rhs => rw [← List.map_id L]
  apply List.map_congr_left
  intro t _
  by_cases h : t.id = id
  · simp [h]
    rw [← h]
  · simp [h]

/-- C9: when no task of `L` carries the id, `toggleTodo` and `deleteTodo` both
return `L` itself. -/
theorem lookup_miss (id : Int) (L : List Todo) (h : ∀ t ∈ L, t.id ≠ id) :
    toggleTodo id L = L ∧ deleteTodo id L = L := by
  constructor
  · unfold toggleTodo
    conv_rhs => rw [← List.map_id L]
    apply List.map_congr_left
    intro t ht
    simp [h t ht]
  · unfold deleteTodo
    rw [List.filter_eq_self]
    intro t ht
    simpa using h t ht

theorem lookup_miss_witness :
    (∀ t ∈ [(⟨1, utf16 "A", false⟩ : Todo), ⟨2, utf16 "B", true⟩], t.id ≠ 3) ∧
    toggleTodo 3 [⟨1, utf16 "A", false⟩, ⟨2, utf16 "B", true⟩]
      = [⟨1, utf16 "A", false⟩, ⟨2, utf16 "B", true⟩] ∧
    deleteTodo 3 [⟨1, utf16 "A", false⟩, ⟨2, utf16 "B", true⟩]
      = [⟨1, utf16 "A", false⟩, ⟨2, utf16 "B", true⟩] :=
  ⟨by decide, lookup_miss 3 [⟨1, utf16 "A", false⟩, ⟨2, utf16 "B", true⟩] (by decide)⟩

/-- C10: for every task list, `totalCount` is its length, `completedCount` the
number of tasks with `completed = true`, and with `remaining = totalCount -
completedCount` (not truncated): `total = completed + remaining`,
`remaining ≥ 0` and `completed ≤ total`. -/
theorem counts_invariant (L : List Todo) :
    totalCount L = L.length ∧
    completedCount L = L.countP (fun t => t.completed) ∧
    (totalCount L : Int) = (completedCount L : Int) + remainingCount L ∧
    0 ≤ remainingCount L ∧
    completedCount L ≤ totalCount L := by
  have hle := completedCount_le_totalCount L
  refine ⟨rfl, ?_, ?_, ?_, hle⟩
  · unfold completedCount
    rw [List.countP_eq_length_filter]
  · unfold remainingCount
    omega
  · unfold remainingCount
    omega

/-! ## Theorems: strings of JSON -/

theorem hexVal_hexDigit (d : Nat) (h : d < 16) : hexVal (hexDigit d) = some d := by
  unfold hexDigit hexVal
  by_cases h10 : d < 10
  · have h1 : 0x30 ≤ 0x30 + d ∧ 0x30 + d ≤ 0x39 := by omega
    rw [if_pos h10, if_pos h1]
    congr 1
    omega
  · have h1 : ¬ (0x30 ≤ 0x61 + (d - 10) ∧ 0x61 + (d - 10) ≤ 0x39) := by omega
    have h2 : 0x61 ≤ 0x61 + (d - 10) ∧ 0x61 + (d - 10) ≤ 0x66 := by omega
    rw [if_neg h10, if_neg h1, if_pos h2]
    congr 1
    omega

theorem parseStringChars_unicodeEscape (c : Nat) (hc : c < 0x10000) (tail : JSString) :
    parseStringChars (unicodeEscape c ++ tail) = consUnit c (parseStringChars tail) := by
  have e : ((c / 0x1000 % 16 * 16 + c / 0x100 % 16) * 16 + c / 0x10 % 16) * 16 + c % 16 = c := by
    omega
  simp only [unicodeEscape, List.cons_append, List.nil_append]
  rw [parseStringChars.eq_def]
  simp only [Nat.reduceEqDiff, if_false, if_true]
  rw [hexVal_hexDigit _ (Nat.mod_lt _ (by decide)), hexVal_hexDigit _ (Nat.mod_lt _ (by decide)),
    hexVal_hexDigit _ (Nat.mod_lt _ (by decide)), hexVal_hexDigit _ (Nat.mod_lt _ (by decide))]
  simp only [e, consUnit]

theorem parseStringChars_verbatim (c : Nat) (h1 : c ≠ 0x22) (h2 : c ≠ 0x5C) (h3 : ¬ c < 0x20)
    (tail : JSString) :
    parseStringChars (c :: tail) = consUnit c (parseStringChars tail) := by
  rw [parseStringChars.eq_def]
  simp only [h1, h2, h3, if_false, consUnit]

theorem parseStringChars_escape (e u : Nat) (he : e ≠ 0x75) (hu : unescape e = some u)
    (tail : JSString) :
    parseStringChars (0x5C :: e :: tail) = consUnit u (parseStringChars tail) := by
  rw [parseStringChars.eq_def]
  simp only [Nat.reduceEqDiff, if_false, if_true, he, hu, consUnit]

theorem parseStringChars_quoteUnit (c : Nat) (tail : JSString) :
    parseStringChars (quoteUnit c ++ tail) = consUnit c (parseStringChars tail) := by
  unfold quoteUnit
  split_ifs with h1 h2 h3 h4 h5 h6 h7 h8
  · subst h1; exact parseStringChars_escape _ _ (by decide) (by decide) tail
  · subst h2; exact parseStringChars_escape _ _ (by decide) (by decide) tail
  · subst h3; exact parseStringChars_escape _ _ (by decide) (by decide) tail
  · subst h4; exact parseStringChars_escape _ _ (by decide) (by decide) tail
  · subst h5; exact parseStringChars_escape _ _ (by decide) (by decide) tail
  · subst h6; exact parseStringChars_escape _ _ (by decide) (by decide) tail
  · subst h7; exact parseStringChars_escape _ _ (by decide) (by decide) tail
  · apply parseStringChars_unicodeEscape
    simp only [isLeadingSurrogate, isTrailingSurrogate, Bool.and_eq_true, decide_eq_true_eq] at h8
    omega
  · simp only [not_or] at h8
    exact parseStringChars_verbatim c h6 h7 h8.1 tail

theorem parseStringChars_quote (rest : JSString) :
    parseStringChars (0x22 :: rest) = .ok ([], rest) := by
  rw [parseStringChars.eq_def]
  simp only [if_true]

theorem parseStringChars_quoteChars (s rest : JSString) :
    parseStringChars (quoteChars s ++ 0x22 :: rest) = .ok (s, rest) := by
  induction s using quoteChars.induct with
  | case1 => exact parseStringChars_quote rest
  | case2 c =>
    rw [quoteChars, parseStringChars_quoteUnit, parseStringChars_quote]
    rfl
  | case3 c d tl hp ih =>
    rw [quoteChars, if_pos hp]
    simp only [isLeadingSurrogate, isTrailingSurrogate, Bool.and_eq_true, decide_eq_true_eq] at hp
    simp only [List.cons_append]
    rw [parseStringChars_verbatim c (by omega) (by omega) (by omega),
      parseStringChars_verbatim d (by omega) (by omega) (by omega), ih]
    rfl
  | case4 c d tl hp ih =>
    rw [quoteChars, if_neg hp, List.append_assoc, parseStringChars_quoteUnit, ih]
    rfl

theorem skipWS_cons (c : Nat) (s : JSString) (h : isJSONWhiteSpace c = false) :
    skipWS (c :: s) = c :: s := by
  simp [skipWS, List.dropWhile, h]

/-! ## Theorems: numbers of JSON -/

theorem natToDecimal_digits (fuel n : Nat) :
    ∀ c ∈ natToDecimal fuel n, isDigit c = true := by
  induction fuel generalizing n with
  | zero => simp [natToDecimal]
  | succ f ih =>
    intro c hc
    rw [natToDecimal] at hc
    split_ifs at hc with h
    · simp only [List.mem_singleton] at hc
      subst hc
      simp only [isDigit, Bool.and_eq_true, decide_eq_true_eq]
      omega
    · rw [List.mem_append, List.mem_singleton] at hc
      rcases hc with hc | hc
      · exact ih _ c hc
      · subst hc
        simp only [isDigit, Bool.and_eq_true, decide_eq_true_eq]
        omega

theorem natToDecimal_ne_nil (fuel n : Nat) (h : n < fuel) : natToDecimal fuel n ≠ [] := by
  cases fuel with
  | zero => omega
  | succ f =>
    rw [natToDecimal]
    split_ifs <;> simp

theorem digitsValue_append_singleton (ds : JSString) (c : Nat) :
    digitsValue (ds ++ [c]) = digitsValue ds * 10 + (c - 0x30) := by
  simp [digitsValue, List.foldl_append]

theorem digitsValue_natToDecimal (fuel n : Nat) (h : n < fuel) :
    digitsValue (natToDecimal fuel n) = n := by
  induction fuel generalizing n with
  | zero => omega
  | succ f ih =>
    rw [natToDecimal]
    split_ifs with h10
    · simp [digitsValue]
    · rw [digitsValue_append_singleton, ih (n / 10) (by omega)]
      omega

theorem natToDecimal_head (fuel n : Nat) (h : n < fuel) (hn : 0 < n) :
    (natToDecimal fuel n).head? ≠ some 0x30 := by
  induction fuel generalizing n with
  | zero => omega
  | succ f ih =>
    rw [natToDecimal]
    split_ifs with h10
    · simp only [List.head?_cons, ne_eq, Option.some.injEq]
      omega
    · have hlt : n / 10 < f := by omega
      have ih2 := ih (n / 10) hlt (by omega)
      cases hq : natToDecimal f (n / 10) with
      | nil => exact absurd hq (natToDecimal_ne_nil f (n / 10) hlt)
      | cons d ds =>
        rw [hq] at ih2
        simpa using ih2

theorem natToDecimal_leading_zero (fuel n : Nat) (h : n < fuel)
    (h0 : (natToDecimal fuel n).head? = some 0x30) : (natToDecimal fuel n).length = 1 := by
  rcases Nat.eq_zero_or_pos n with hn | hn
  · subst hn
    cases fuel with
    | zero => omega
    | succ f => simp [natToDecimal]
  · exact absurd h0 (natToDecimal_head fuel n h hn)

theorem takeWhile_digits (ds : JSString) (c : Nat) (rest : JSString)
    (hds : ∀ d ∈ ds, isDigit d = true) (hc : isDigit c = false) :
    (ds ++ c :: rest).takeWhile isDigit = ds ∧ (ds ++ c :: rest).dropWhile isDigit = c :: rest := by
  induction ds with
  | nil => simp [List.takeWhile, List.dropWhile, hc]
  | cons d ds ih =>
    have hd : isDigit d = true := hds d (List.mem_cons_self _ _)
    have ih2 := ih (fun x hx => hds x (List.mem_cons_of_mem _ hx))
    simp [List.takeWhile, List.dropWhile, hd, ih2.1, ih2.2]

theorem parseUnsigned_natToDecimal (fuel n : Nat) (h : n < fuel) (hn : n ≤ maxExactInteger)
    (c : Nat) (rest : JSString)
    (hc : isDigit c = false) (h1 : c ≠ 0x2E) (h2 : c ≠ 0x65) (h3 : c ≠ 0x45) :
    parseUnsigned (natToDecimal fuel n ++ c :: rest) = .ok (n, c :: rest) := by
  have htd := takeWhile_digits (natToDecimal fuel n) c rest (natToDecimal_digits fuel n) hc
  unfold parseUnsigned
  simp only [htd.1, htd.2]
  rw [if_neg (natToDecimal_ne_nil fuel n h)]
  have hz : ¬ ((natToDecimal fuel n).head? = some 0x30 ∧ 1 < (natToDecimal fuel n).length) := by
    rintro ⟨ha, hb⟩
    have := natToDecimal_leading_zero fuel n h ha
    omega
  rw [if_neg hz]
  simp only [h1, h2, h3, or_self, if_false, digitsValue_natToDecimal fuel n h,
    if_neg (Nat.not_lt.mpr hn)]

theorem natToDecimal_cons (fuel n : Nat) (h : n < fuel) :
    ∃ d ds, natToDecimal fuel n = d :: ds ∧ isDigit d = true := by
  cases hq : natToDecimal fuel n with
  | nil => exact absurd hq (natToDecimal_ne_nil fuel n h)
  | cons d ds =>
    refine ⟨d, ds, rfl, ?_⟩
    apply natToDecimal_digits fuel n
    rw [hq]
    exact List.mem_cons_self _ _

/-- The text of a number starts with a minus sign or a digit. -/
theorem numberToString_cons (z : Int) :
    ∃ d ds, numberToString z = d :: ds ∧ (d = 0x2D ∨ isDigit d = true) := by
  cases z with
  | ofNat m =>
    obtain ⟨d, ds, hq, hd⟩ := natToDecimal_cons (m + 1) m (by omega)
    exact ⟨d, ds, hq, Or.inr hd⟩
  | negSucc m => exact ⟨0x2D, _, rfl, Or.inl rfl⟩

theorem parseNumber_numberToString (z : Int) (hz : z.natAbs ≤ maxExactInteger)
    (c : Nat) (rest : JSString)
    (hc : isDigit c = false) (h1 : c ≠ 0x2E) (h2 : c ≠ 0x65) (h3 : c ≠ 0x45) :
    parseNumber (numberToString z ++ c :: rest) = .ok (z, c :: rest) := by
  cases z with
  | ofNat m =>
    obtain ⟨d, ds, hq, hd⟩ := natToDecimal_cons (m + 1) m (by omega)
    have hp := parseUnsigned_natToDecimal (m + 1) m (by omega) (by simpa using hz)
      c rest hc h1 h2 h3
    have hd2 : d ≠ 0x2D := by
      intro h
      subst h
      simp [isDigit] at hd
    simp only [numberToString]
    rw [hq] at hp ⊢
    simp only [List.cons_append, parseNumber, if_neg hd2] at hp ⊢
    rw [hp]
    rfl
  | negSucc m =>
    have hp := parseUnsigned_natToDecimal (m + 2) (m + 1) (by omega) (by simpa using hz)
      c rest hc h1 h2 h3
    simp only [numberToString, List.cons_append, parseNumber, if_true]
    rw [hp]
    simp only [Int.negSucc_eq]
    norm_cast

/-! ## Theorems: values of JSON -/

theorem JSON_stringify_number (n : Int) : JSON_stringify (.number n) = numberToString n := by
  rw [JSON_stringify]

theorem JSON_stringify_string (s : JSString) :
    JSON_stringify (.string s) = quoteJSONString s := by
  rw [JSON_stringify]

theorem JSON_stringify_array (vs : List JSValue) :
    JSON_stringify (.array vs) = 0x5B :: stringifyElements vs ++ [0x5D] := by
  rw [JSON_stringify]

theorem JSON_stringify_object (ps : List (JSString × JSValue)) :
    JSON_stringify (.object ps) = 0x7B :: stringifyProperties ps ++ [0x7D] := by
  rw [JSON_stringify]

theorem parseValue_number (f : Nat) (z : Int) (hz : z.natAbs ≤ maxExactInteger)
    (c : Nat) (rest : JSString)
    (hc : isDigit c = false) (h1 : c ≠ 0x2E) (h2 : c ≠ 0x65) (h3 : c ≠ 0x45) :
    parseValue (f + 1) (numberToString z ++ c :: rest) = .ok (.number z, c :: rest) := by
  have hp := parseNumber_numberToString z hz c rest hc h1 h2 h3
  obtain ⟨d, ds, hq, hd⟩ := numberToString_cons z
  rw [hq] at hp ⊢
  have hws : isJSONWhiteSpace d = false := by
    rcases hd with hd | hd
    · subst hd; rfl
    · simp only [isDigit, Bool.and_eq_true, decide_eq_true_eq] at hd
      simp only [isJSONWhiteSpace, Bool.or_eq_false_iff, beq_eq_false_iff_ne, ne_eq]
      omega
  have hne : d ≠ 0x6E ∧ d ≠ 0x74 ∧ d ≠ 0x66 ∧ d ≠ 0x22 ∧ d ≠ 0x5B ∧ d ≠ 0x7B := by
    rcases hd with hd | hd
    · subst hd; decide
    · simp only [isDigit, Bool.and_eq_true, decide_eq_true_eq] at hd
      omega
  simp only [List.cons_append] at hp ⊢
  rw [parseValue, skipWS_cons d _ hws]
  simp only [hne.1, hne.2.1, hne.2.2.1, hne.2.2.2.1, hne.2.2.2.2.1, hne.2.2.2.2.2, if_false,
    hd, if_true, hp]

theorem parseValue_string (f : Nat) (s rest : JSString) :
    parseValue (f + 1) (quoteJSONString s ++ rest) = .ok (.string s, rest) := by
  have hp := parseStringChars_quoteChars s rest
  simp only [quoteJSONString, List.cons_append, List.append_assoc, List.nil_append]
  rw [parseValue, skipWS_cons _ _ (by rfl)]
  simp only [Nat.reduceEqDiff, if_false, if_true, hp]

theorem parseValue_bool (f : Nat) (b : Bool) (rest : JSString) :
    parseValue (f + 1) (JSON_stringify (.bool b) ++ rest) = .ok (.bool b, rest) := by
  cases b
  · have e : JSON_stringify (.bool false) = [0x66, 0x61, 0x6C, 0x73, 0x65] := by decide
    rw [e, parseValue]
    simp only [List.cons_append, List.nil_append, skipWS_cons _ _ (show isJSONWhiteSpace 0x66 = false by rfl)]
    simp
  · have e : JSON_stringify (.bool true) = [0x74, 0x72, 0x75, 0x65] := by decide
    rw [e, parseValue]
    simp only [List.cons_append, List.nil_append, skipWS_cons _ _ (show isJSONWhiteSpace 0x74 = false by rfl)]
    simp

/-- One member of an object with a comma after it. -/
theorem parseMembers_comma (f : Nat) (acc : List (JSString × JSValue)) (k : JSString)
    (hk : isIndexKey k = false) (text : JSString) (v : JSValue) (rest : JSString)
    (hv : parseValue f text = .ok (v, 0x2C :: rest)) :
    parseMembers (f + 1) acc (quoteJSONString k ++ 0x3A :: text)
      = parseMembers f (setProperty acc k v) rest := by
  have hp := parseStringChars_quoteChars k (0x3A :: text)
  simp only [quoteJSONString, List.cons_append, List.append_assoc, List.nil_append]
  rw [parseMembers, skipWS_cons _ _ (by rfl)]
  simp only [if_true, hp, skipWS_cons 0x3A _ (by rfl), hv, skipWS_cons 0x2C _ (by rfl), hk,
    Bool.false_eq_true, if_false]

/-- The last member of an object with the closing brace after it. -/
theorem parseMembers_close (f : Nat) (acc : List (JSString × JSValue)) (k : JSString)
    (hk : isIndexKey k = false) (text : JSString) (v : JSValue) (rest : JSString)
    (hv : parseValue f text = .ok (v, 0x7D :: rest)) :
    parseMembers (f + 1) acc (quoteJSONString k ++ 0x3A :: text)
      = .ok (.object (setProperty acc k v), rest) := by
  have hp := parseStringChars_quoteChars k (0x3A :: text)
  simp only [quoteJSONString, List.cons_append, List.append_assoc, List.nil_append]
  rw [parseMembers, skipWS_cons _ _ (by rfl)]
  simp only [if_true, hp, skipWS_cons 0x3A _ (by rfl), hv, skipWS_cons 0x7D _ (by rfl), hk,
    Bool.false_eq_true, if_false]
  simp

theorem parseValue_todoValue (f : Nat) (t : Todo) (ht : t.id.natAbs ≤ maxExactInteger)
    (rest : JSString) :
    parseValue (f + 5) (JSON_stringify (todoValue t) ++ rest) = .ok (todoValue t, rest) := by
  have h3 := parseMembers_close (f + 1) [(utf16 "id", .number t.id), (utf16 "text", .string t.text)]
    (utf16 "completed") (by decide) (JSON_stringify (.bool t.completed) ++ 0x7D :: rest)
    (.bool t.completed)
    rest (parseValue_bool f _ _)
  have h2 := parseMembers_comma (f + 2) [(utf16 "id", .number t.id)] (utf16 "text") (by decide)
    (quoteJSONString t.text ++ 0x2C :: (quoteJSONString (utf16 "completed") ++ 0x3A ::
      (JSON_stringify (.bool t.completed) ++ 0x7D :: rest))) (.string t.text) _
    (parseValue_string (f + 1) _ _)
  have h1 := parseMembers_comma (f + 3) [] (utf16 "id") (by decide)
    (numberToString t.id ++ 0x2C :: (quoteJSONString (utf16 "text") ++ 0x3A ::
      (quoteJSONString t.text ++ 0x2C :: (quoteJSONString (utf16 "completed") ++ 0x3A ::
      (JSON_stringify (.bool t.completed) ++ 0x7D :: rest))))) (.number t.id) _
    (parseValue_number (f + 2) _ ht _ _ (by rfl) (by decide) (by decide) (by decide))
  have e1 : setProperty [] (utf16 "id") (.number t.id) = [(utf16 "id", .number t.id)] := rfl
  have e2 : setProperty [(utf16 "id", .number t.id)] (utf16 "text") (.string t.text)
      = [(utf16 "id", .number t.id), (utf16 "text", .string t.text)] := by
    simp only [setProperty, show utf16 "id" ≠ utf16 "text" by decide, if_false]
  have e3 : setProperty [(utf16 "id", .number t.id), (utf16 "text", .string t.text)]
      (utf16 "completed") (.bool t.completed)
      = [(utf16 "id", .number t.id), (utf16 "text", .string t.text),
          (utf16 "completed", .bool t.completed)] := by
    simp only [setProperty, show utf16 "id" ≠ utf16 "completed" by decide,
      show utf16 "text" ≠ utf16 "completed" by decide, if_false]
  rw [e1, h2, e2, h3, e3] at h1
  have hs : JSON_stringify (todoValue t) ++ rest
      = 0x7B :: (quoteJSONString (utf16 "id") ++ 0x3A ::
        (numberToString t.id ++ 0x2C :: (quoteJSONString (utf16 "text") ++ 0x3A ::
        (quoteJSONString t.text ++ 0x2C :: (quoteJSONString (utf16 "completed") ++ 0x3A ::
        (JSON_stringify (.bool t.completed) ++ 0x7D :: rest)))))) := by
    simp only [todoValue, JSON_stringify_object, JSON_stringify_number, JSON_stringify_string,
      stringifyProperties, List.append_assoc, List.cons_append, List.nil_append]
  rw [hs, parseValue, skipWS_cons _ _ (by rfl)]
  simp only [Nat.reduceEqDiff, if_false, if_true]
  have hq : ∀ tail, skipWS (quoteJSONString (utf16 "id") ++ tail)
      = 0x22 :: (quoteChars (utf16 "id") ++ 0x22 :: tail) := by
    intro tail
    simp only [quoteJSONString, List.cons_append, List.append_assoc, List.nil_append]
    exact skipWS_cons _ _ (by rfl)
  rw [hq]
  simp only [Nat.reduceEqDiff]
  exact h1

/-! ## Theorems: the saved list -/

theorem stringifyElements_cons_cons (v w : JSValue) (vs : List JSValue) :
    stringifyElements (v :: w :: vs) = JSON_stringify v ++ 0x2C :: stringifyElements (w :: vs) := by
  rw [stringifyElements]

theorem stringifyElements_singleton (v : JSValue) :
    stringifyElements [v] = JSON_stringify v := by
  rw [stringifyElements]

theorem parseElements_todos (ts : List Todo) (t : Todo)
    (hids : ∀ x ∈ t :: ts, x.id.natAbs ≤ maxExactInteger) (f : Nat) (rest : JSString) :
    parseElements (f + 6 + ts.length)
        (stringifyElements ((t :: ts).map todoValue) ++ 0x5D :: rest)
      = .ok ((t :: ts).map todoValue, rest) := by
  induction ts generalizing t f with
  | nil =>
    have hv := parseValue_todoValue f t (hids t (List.mem_cons_self _ _)) (0x5D :: rest)
    simp only [List.map_cons, List.map_nil, stringifyElements_singleton, List.length_nil,
      Nat.add_zero]
    rw [parseElements, hv]
    simp only [skipWS_cons 0x5D _ (by rfl), Nat.reduceEqDiff, if_false, if_true]
  | cons u us ih =>
    have hv := parseValue_todoValue (f + us.length + 1) t (hids t (List.mem_cons_self _ _))
      (0x2C :: (stringifyElements ((u :: us).map todoValue) ++ 0x5D :: rest))
    have hf : f + 6 + (u :: us).length = (f + us.length + 1 + 5) + 1 := by
      simp only [List.length_cons]
      omega
    have hf2 : f + us.length + 1 + 5 = f + 6 + us.length := by omega
    rw [hf]
    simp only [List.map_cons, stringifyElements_cons_cons, List.append_assoc, List.cons_append]
    simp only [List.map_cons] at hv ih
    rw [parseElements, hv]
    simp only [skipWS_cons 0x2C _ (by rfl), if_true]
    rw [hf2, ih u (fun x hx => hids x (List.mem_cons_of_mem _ hx)) f]

theorem JSON_stringify_todoValue_cons (t : Todo) :
    ∃ tail, JSON_stringify (todoValue t) = 0x7B :: tail ∧ 5 ≤ tail.length := by
  refine ⟨_, JSON_stringify_object _, ?_⟩
  simp only [stringifyProperties, quoteJSONString, List.append_eq, List.length_append,
    List.length_cons, List.length_nil]
  omega

theorem stringifyElements_todos_cons (ts : List Todo) (t : Todo) :
    ∃ tail, stringifyElements ((t :: ts).map todoValue) = 0x7B :: tail ∧
      ts.length + 5 ≤ tail.length := by
  induction ts generalizing t with
  | nil =>
    obtain ⟨tail, h1, h2⟩ := JSON_stringify_todoValue_cons t
    exact ⟨tail, by simpa [stringifyElements_singleton] using h1, by simpa using h2⟩
  | cons u us ih =>
    obtain ⟨tail, h1, h2⟩ := JSON_stringify_todoValue_cons t
    obtain ⟨tail2, h3, h4⟩ := ih u
    refine ⟨tail ++ 0x2C :: stringifyElements ((u :: us).map todoValue), ?_, ?_⟩
    · simp only [List.map_cons, stringifyElements_cons_cons, h1, List.cons_append]
    · rw [h3]
      simp only [List.length_append, List.length_cons]
      omega

/-- The text that Save writes for a list of one task. -/
theorem JSON_stringify_example :
    JSON_stringify (todosValue [⟨1700000000000, utf16 "Buy milk", false⟩])
      = utf16 "[\x7b\"id\":1700000000000,\"text\":\"Buy milk\",\"completed\":false\x7d]" := by
  decide

/-- The text that `JSON.stringify` writes for a text with a quote, a line
break, a backslash and a surrogate without partner. -/
theorem quoteJSONString_example :
    quoteJSONString (utf16 "a\"b\n\\" ++ [0xD83D])
      = utf16 "\"a\\\"b\\n\\\\\\ud83d\"" := by
  decide

/-- Parsing the text that `JSON.stringify` writes for a task list whose ids are
exact integers gives the value of that list. -/
theorem JSON_parse_stringify_todos (L : List Todo)
    (hids : ∀ t ∈ L, t.id.natAbs ≤ maxExactInteger) :
    JSON_parse (JSON_stringify (todosValue L)) = .ok (todosValue L) := by
  cases L with
  | nil => rfl
  | cons t ts =>
    obtain ⟨tail, h1, h2⟩ := stringifyElements_todos_cons ts t
    have hp := parseElements_todos ts t hids (tail.length - ts.length - 3) []
    rw [h1] at hp
    simp only [List.cons_append] at hp
    unfold JSON_parse
    simp only [todosValue, JSON_stringify_array, h1, List.cons_append]
    generalize hF : (0x5B :: 0x7B :: (tail ++ [0x5D])).length + 1 = F
    have hf : F = (tail.length - ts.length - 3 + 6 + ts.length) + 1 := by
      rw [← hF]
      simp only [List.length_cons, List.length_append, List.length_nil]
      omega
    rw [hf, parseValue, skipWS_cons 0x5B _ (by rfl)]
    simp only [Nat.reduceEqDiff, if_false, if_true, skipWS_cons 0x7B _ (by rfl), hp]
    rfl

theorem getItem_setItem (storage : Storage) (key value : JSString) :
    getItem (setItem storage key value) key = some value := by
  induction storage with
  | nil => simp [setItem, getItem]
  | cons p ps ih =>
    obtain ⟨k, v⟩ := p
    by_cases hk : k = key
    · simp [setItem, getItem, hk]
    · simp [setItem, getItem, hk, ih]

theorem todoValue_injective (a b : Todo) (h : todoValue a = todoValue b) : a = b := by
  cases a
  cases b
  simp only [todoValue, JSValue.object.injEq, List.cons.injEq, Prod.mk.injEq, true_and,
    JSValue.number.injEq, JSValue.string.injEq, JSValue.bool.injEq, and_true] at h
  simp only [Todo.mk.injEq]
  exact h

theorem todosValue_injective (L1 L2 : List Todo) (h : todosValue L1 = todosValue L2) :
    L1 = L2 := by
  simp only [todosValue, JSValue.array.injEq] at h
  exact List.map_injective_iff.mpr (fun a b hab => todoValue_injective a b hab) h

/-- A number text above `2 ^ 53`, an exponent and an integer key are outside
the model: the parser gives no value for them. -/
theorem JSON_parse_notModelled :
    JSON_parse (utf16 "9007199254740993") = .error .notModelled ∧
    JSON_parse (utf16 "1e+21") = .error .notModelled ∧
    JSON_parse (utf16 "\x7b\"b\":1,\"7\":2\x7d") = .error .notModelled ∧
    JSON_parse (utf16 "9007199254740992") = .ok (.number 9007199254740992) :=
  ⟨rfl, rfl, rfl, rfl⟩

/-- C6: for a task list whose ids are integers of absolute value at most
`2 ^ 53` (as every value of `Date.now()` is), after Save has written
`JSON.stringify(todos)` under the key `react-todo-app-v1`, Load finds that
text, takes the parsing branch and returns the value of the same task list:
the same tasks in the same order with the same id, text and completed (two
lists with the same value are equal). -/
theorem load_save_roundtrip (L : List Todo) (storage : Storage)
    (hids : ∀ t ∈ L, t.id.natAbs ≤ maxExactInteger) :
    getItem (saveTodos L storage) storageKey = some (JSON_stringify (todosValue L)) ∧
    loadTodos (saveTodos L storage) = .ok (todosValue L) ∧
    ∀ L2 : List Todo, loadTodos (saveTodos L storage) = .ok (todosValue L2) → L2 = L := by
  have hg : getItem (saveTodos L storage) storageKey = some (JSON_stringify (todosValue L)) :=
    getItem_setItem storage storageKey _
  have hne : JSON_stringify (todosValue L) ≠ [] := by
    simp [todosValue, JSON_stringify_array]
  have hl : loadTodos (saveTodos L storage) = .ok (todosValue L) := by
    unfold loadTodos
    rw [hg]
    simp only [ne_eq, hne, not_false_eq_true, if_true]
    exact JSON_parse_stringify_todos L hids
  refine ⟨hg, hl, ?_⟩
  intro L2 h2
  rw [hl] at h2
  exact todosValue_injective L2 L (Except.ok.inj h2).symm

theorem load_save_roundtrip_witness :
    (∀ t ∈ [(⟨1700000000000, utf16 "Buy \"milk\"", false⟩ : Todo), ⟨-5, [0xD83D, 0x0A], true⟩],
      t.id.natAbs ≤ maxExactInteger) ∧
    loadTodos (saveTodos [⟨1700000000000, utf16 "Buy \"milk\"", false⟩,
        ⟨-5, [0xD83D, 0x0A], true⟩] [(utf16 "theme", utf16 "dark")])
      = .ok (todosValue [⟨1700000000000, utf16 "Buy \"milk\"", false⟩,
        ⟨-5, [0xD83D, 0x0A], true⟩]) :=
  ⟨by decide,
   (load_save_roundtrip [⟨1700000000000, utf16 "Buy \"milk\"", false⟩,
      ⟨-5, [0xD83D, 0x0A], true⟩] [(utf16 "theme", utf16 "dark")] (by decide)).2.1⟩

end TaskManager
